import Mathlib

/-! Banker's algorithm (`bankersAlgorithm.cpp`)

A shallow embedding of the resource ledger of `bankersAlgorithm.cpp` and of the three
functions that act on it: `request_resources`, `release_resources` and
`safety_algorithm`.

* The global arrays `available`, `maximum`, `allocation`, `need` have fixed sizes, so
  they are total functions on `Fin NUMBER_OF_RESOURCES` and
  `Fin NUMBER_OF_CUSTOMERS → Fin NUMBER_OF_RESOURCES`.
* The C `int` entries are mathematical integers (`Int`): signed overflow is undefined
  in C++ and is not modelled.
* The mutex is not modelled: each function is one atomic state transformer that
  returns its return code together with the ledger it leaves behind.
-/

namespace Bankers

/-- The constant `NUMBER_OF_CUSTOMERS` of the source. -/
abbrev NUMBER_OF_CUSTOMERS : Nat := 5

/-- The constant `NUMBER_OF_RESOURCES` of the source. -/
abbrev NUMBER_OF_RESOURCES : Nat := 3

/-- An `int[NUMBER_OF_RESOURCES]` array. -/
abbrev Vec : Type := Fin NUMBER_OF_RESOURCES → Int

/-- An `int[NUMBER_OF_CUSTOMERS][NUMBER_OF_RESOURCES]` array. -/
abbrev Mat : Type := Fin NUMBER_OF_CUSTOMERS → Vec

/-- The global ledger: the four global arrays of the source. -/
structure Ledger where
  available : Vec
  maximum : Mat
  allocation : Mat
  need : Mat

/-- The ledger as `main` builds it (lines 30-42): `available` comes from the command
line, `maximum[i][j]` is the value drawn by `rand() % (available[j] + 1)` (a parameter
here), `allocation` is zero and `need` is a copy of `maximum`. -/
def main_init (avail : Vec) (maxv : Mat) : Ledger :=
  { available := avail
    maximum := maxv
    allocation := fun _ _ => 0
    need := maxv }

/-- The validation loops of `request_resources` (lines 72-77 and 80-85): `true` when
some index `i` has `request[i] > bound[i]`, the condition under which the loop returns
`-1`. -/
def exceeds (request bound : Vec) : Bool :=
  (List.finRange NUMBER_OF_RESOURCES).any (fun i => decide (request i > bound i))

/-- The loop of lines 88-92: the provisional allocation of `request` to
`customer_num`. -/
def try_allocate (s : Ledger) (customer_num : Fin NUMBER_OF_CUSTOMERS) (request : Vec) :
    Ledger :=
  { available := fun i => s.available i - request i
    maximum := s.maximum
    allocation := Function.update s.allocation customer_num
      (fun i => s.allocation customer_num i + request i)
    need := Function.update s.need customer_num
      (fun i => s.need customer_num i - request i) }

/-- The loop of lines 97-101: the rollback of a provisional allocation. -/
def rollback (s : Ledger) (customer_num : Fin NUMBER_OF_CUSTOMERS) (request : Vec) :
    Ledger :=
  { available := fun i => s.available i + request i
    maximum := s.maximum
    allocation := Function.update s.allocation customer_num
      (fun i => s.allocation customer_num i - request i)
    need := Function.update s.need customer_num
      (fun i => s.need customer_num i + request i) }

/-- The innermost loop of `safety_algorithm` (lines 179-185): `can_allocate` stays
`true` when no index `j` has `temp_need[i][j] > temp_available[j]`. -/
def can_allocate (need_i temp_available : Vec) : Bool :=
  (List.finRange NUMBER_OF_RESOURCES).all
    (fun j => !decide (need_i j > temp_available j))

/-- The local state of the scan of `safety_algorithm`: `temp_available` and
`finish`. -/
abbrev Work : Type := Vec × (Fin NUMBER_OF_CUSTOMERS → Bool)

/-- The loop over `i` of `safety_algorithm` (lines 177-195), run over the customer
indices still to visit: the first unfinished customer that can be allocated is marked
finished and its allocation is added to `temp_available`; `none` stands for
`found == false`. -/
def scan (temp_allocation temp_need : Mat) (w : Work) :
    List (Fin NUMBER_OF_CUSTOMERS) → Option Work
  | [] => none
  | i :: rest =>
    if !w.2 i && can_allocate (temp_need i) w.1 then
      some (fun j => w.1 j + temp_allocation i j, Function.update w.2 i true)
    else scan temp_allocation temp_need w rest

/-- The loop over `count` of `safety_algorithm` (lines 175-199), with the number of
iterations left: a scan that finds nobody returns `false`, and `true` is returned when
all iterations have passed. -/
def rounds (temp_allocation temp_need : Mat) : Nat → Work → Bool
  | 0, _ => true
  | n + 1, w =>
    match scan temp_allocation temp_need w (List.finRange NUMBER_OF_CUSTOMERS) with
    | none => false
    | some w' => rounds temp_allocation temp_need n w'

/-- The function `safety_algorithm` (lines 156-201), reading the global ledger `s`.
`temp_available` starts as `available - request`, `finish` as all `false`. The
parameter `customer_num` is unused, as in the source. -/
def safety_algorithm (s : Ledger) (_customer_num : Fin NUMBER_OF_CUSTOMERS)
    (request : Vec) : Bool :=
  rounds s.allocation s.need NUMBER_OF_CUSTOMERS
    (fun i => s.available i - request i, fun _ => false)

/-- The function `request_resources` (lines 67-108): the return code and the ledger
after the call. -/
def request_resources (s : Ledger) (customer_num : Fin NUMBER_OF_CUSTOMERS)
    (request : Vec) : Int × Ledger :=
  if exceeds request (s.need customer_num) then (-1, s)
  else if exceeds request s.available then (-1, s)
  else
    let s1 := try_allocate s customer_num request
    if !safety_algorithm s1 customer_num request then
      (-1, rollback s1 customer_num request)
    else (0, s1)

/-- The function `release_resources` (lines 110-123): the return code and the ledger
after the call. -/
def release_resources (s : Ledger) (customer_num : Fin NUMBER_OF_CUSTOMERS)
    (release : Vec) : Int × Ledger :=
  (0, { available := fun i => s.available i + release i
        maximum := s.maximum
        allocation := Function.update s.allocation customer_num
          (fun i => s.allocation customer_num i - release i)
        need := Function.update s.need customer_num
          (fun i => s.need customer_num i + release i) })

/-- A ledger is safe when the safety test seeded with its own `available` succeeds:
`safety_algorithm` with an all-zero request. -/
def is_safe (s : Ledger) : Bool :=
  safety_algorithm s 0 (fun _ => 0)

/-- Scenario A: one populated resource type with 10 units, customer 0 with maximum 10
and nothing allocated; every other entry of the 5x3 layout is zero. -/
def scenarioA : Ledger :=
  main_init ![10, 0, 0] ![![10, 0, 0], ![0, 0, 0], ![0, 0, 0], ![0, 0, 0], ![0, 0, 0]]

/-- Scenario A's request: customer 0 asks for its full maximum of 10 units. -/
def requestA : Vec := ![10, 0, 0]

/-- A call issued by a customer thread: `request_resources` or `release_resources` with
its two arguments. -/
inductive Call where
  | request (customer_num : Fin NUMBER_OF_CUSTOMERS) (amounts : Vec)
  | release (customer_num : Fin NUMBER_OF_CUSTOMERS) (amounts : Vec)

/-- The ledger after one call. -/
def exec (s : Ledger) : Call → Ledger
  | Call.request c a => (request_resources s c a).2
  | Call.release c a => (release_resources s c a).2

/-- The ledger after a finite sequence of calls, applied one after the other. -/
def run (s : Ledger) : List Call → Ledger
  | [] => s
  | k :: rest => run (exec s k) rest

/-- The bounds on the amounts of a call made in ledger `s`: a request has non-negative
amounts, a release has `0 <= amounts[j] <= allocation[c][j]`. -/
def inBounds (s : Ledger) : Call → Bool
  | Call.request _ a => decide (∀ j, 0 ≤ a j)
  | Call.release c a => decide (∀ j, 0 ≤ a j ∧ a j ≤ s.allocation c j)

/-- Every call of the sequence is within bounds in the ledger it is made in. -/
def allInBounds (s : Ledger) : List Call → Bool
  | [] => true
  | k :: rest => inBounds s k && allInBounds (exec s k) rest

/-- The customers of `order` can finish one after the other from the work vector `w`:
each one's need fits in the work vector of its turn, and its allocation is added to the
work vector for the next turn (`W(k+1) = W(k) + Allocation[p(k)]`). -/
def Completes (allocation need : Mat) : Vec → List (Fin NUMBER_OF_CUSTOMERS) → Prop
  | _, [] => True
  | w, i :: rest =>
    (∀ j, need i j ≤ w j) ∧ Completes allocation need (fun j => w j + allocation i j) rest

/-- A completion order exists for the work vector `w0`: some permutation of all
customers completes from `w0`. -/
def CompletionOrderExists (allocation need : Mat) (w0 : Vec) : Prop :=
  ∃ order : List (Fin NUMBER_OF_CUSTOMERS),
    order.Perm (List.finRange NUMBER_OF_CUSTOMERS) ∧ Completes allocation need w0 order

/-- The units of resource type `j` accounted for by the ledger: the free units plus the
units held by all customers. -/
def total_units (s : Ledger) (j : Fin NUMBER_OF_RESOURCES) : Int :=
  s.available j + ∑ i : Fin NUMBER_OF_CUSTOMERS, s.allocation i j

/-- Need consistency: `Need[i][j] = Maximum[i][j] - Allocation[i][j]` everywhere. -/
def NeedConsistent (s : Ledger) : Prop :=
  ∀ i j, s.need i j = s.maximum i j - s.allocation i j

/-- Non-negativity: no entry of `available`, `allocation` or `need` is negative. -/
def NonNeg (s : Ledger) : Prop :=
  (∀ j, 0 ≤ s.available j) ∧ (∀ i j, 0 ≤ s.allocation i j) ∧ (∀ i j, 0 ≤ s.need i j)

instance (s : Ledger) : Decidable (NeedConsistent s) :=
  inferInstanceAs (Decidable (∀ i j, s.need i j = s.maximum i j - s.allocation i j))

instance (s : Ledger) : Decidable (NonNeg s) :=
  inferInstanceAs (Decidable ((∀ j, 0 ≤ s.available j) ∧ (∀ i j, 0 ≤ s.allocation i j) ∧
    (∀ i j, 0 ≤ s.need i j)))

/-- Scenario C: one populated resource type with 3 units, customers 0 and 1 with
maximum 2 and nothing allocated; every other entry of the 5x3 layout is zero. -/
def scenarioC : Ledger :=
  main_init ![3, 0, 0] ![![2, 0, 0], ![2, 0, 0], ![0, 0, 0], ![0, 0, 0], ![0, 0, 0]]

/-- Scenario C's first request: customer 0 asks for one unit. -/
def requestC : Vec := ![1, 0, 0]

/-- A request above customer 0's need in Scenario A. -/
def requestOver : Vec := ![11, 0, 0]

/-- A sequence of calls on Scenario C: customer 0 requests one unit, customer 1
requests two units, customer 0 releases one unit. -/
def callsC : List Call :=
  [Call.request 0 ![1, 0, 0], Call.request 1 ![2, 0, 0], Call.release 0 ![1, 0, 0]]

/-- Scenario C after its first request: the ledger left by `request_resources(0, [1])`
on `scenarioC`. -/
def scenarioC1 : Ledger := (request_resources scenarioC 0 requestC).2

/-- Scenario C's second request: customer 1 asks for its full maximum of 2 units. -/
def requestC2 : Vec := ![2, 0, 0]

/-- A ledger with one free unit of each resource type and every customer at maximum
zero, holding nothing. -/
def idleLedger : Ledger :=
  main_init ![1, 1, 1] ![![0, 0, 0], ![0, 0, 0], ![0, 0, 0], ![0, 0, 0], ![0, 0, 0]]

/-- A request vector with a negative amount. -/
def requestNeg : Vec := ![-1, 0, 0]

/-! ## The validation and eligibility tests -/

theorem exceeds_iff (request bound : Vec) :
    exceeds request bound = true ↔ ∃ j, bound j < request j := by
  simp [exceeds, List.any_eq_true, List.mem_finRange]

theorem exceeds_eq_false_iff (request bound : Vec) :
    exceeds request bound = false ↔ ∀ j, request j ≤ bound j := by
  rw [← Bool.not_eq_true, exceeds_iff]
  simp

theorem can_allocate_iff (need_i w : Vec) :
    can_allocate need_i w = true ↔ ∀ j, need_i j ≤ w j := by
  simp [can_allocate, List.all_eq_true, List.mem_finRange]

/-! ## The scan of the safety algorithm -/

theorem scan_some {A N : Mat} {w w' : Work} :
    ∀ {l : List (Fin NUMBER_OF_CUSTOMERS)}, scan A N w l = some w' →
      ∃ i, i ∈ l ∧ w.2 i = false ∧ (∀ j, N i j ≤ w.1 j) ∧
        w' = (fun j => w.1 j + A i j, Function.update w.2 i true)
  | [], h => by simp [scan] at h
  | a :: rest, h => by
    unfold scan at h
    split at h
    · rename_i hc
      simp only [Bool.and_eq_true, Bool.not_eq_true', can_allocate_iff] at hc
      refine ⟨a, List.mem_cons_self _ _, hc.1, hc.2, ?_⟩
      exact (Option.some.inj h).symm
    · obtain ⟨i, hi, rest⟩ := scan_some h
      exact ⟨i, List.mem_cons_of_mem _ hi, rest⟩

theorem scan_isSome {A N : Mat} {w : Work} :
    ∀ {l : List (Fin NUMBER_OF_CUSTOMERS)} {i : Fin NUMBER_OF_CUSTOMERS}, i ∈ l →
      w.2 i = false → (∀ j, N i j ≤ w.1 j) → ∃ w', scan A N w l = some w'
  | [], _, h, _, _ => by simp at h
  | a :: rest, i, h, hf, hn => by
    unfold scan
    split
    · exact ⟨_, rfl⟩
    · rename_i hc
      rcases List.mem_cons.mp h with rfl | h
      · exact absurd (by simp [hf, can_allocate_iff, hn]) hc
      · exact scan_isSome h hf hn

/-! ## Completion orders -/

theorem completes_mono {A N : Mat} :
    ∀ {order : List (Fin NUMBER_OF_CUSTOMERS)} {w w' : Vec}, (∀ j, w j ≤ w' j) →
      Completes A N w order → Completes A N w' order
  | [], _, _, _, _ => trivial
  | i :: _, _, _, hle, h =>
    ⟨fun j => le_trans (h.1 j) (hle j),
      completes_mono (fun j => add_le_add_right (hle j) (A i j)) h.2⟩

/-- A customer of a completion order may be moved to the front: when allocations are
non-negative, the others still complete once it has returned its allocation. -/
theorem completes_erase {A N : Mat} (hA : ∀ i j, 0 ≤ A i j) (i : Fin NUMBER_OF_CUSTOMERS) :
    ∀ {order : List (Fin NUMBER_OF_CUSTOMERS)} {w : Vec}, i ∈ order →
      Completes A N w order → Completes A N (fun j => w j + A i j) (order.erase i)
  | [], _, h, _ => by simp at h
  | a :: rest, w, h, hc => by
    by_cases hai : a = i
    · subst hai
      rw [List.erase_cons_head]
      exact hc.2
    · have hmem : i ∈ rest := by
        rcases List.mem_cons.mp h with h | h
        · exact absurd h.symm hai
        · exact h
      rw [List.erase_cons_tail (by simpa using hai)]
      refine ⟨fun j => le_trans (hc.1 j) (le_add_of_nonneg_right (hA i j)), ?_⟩
      refine completes_mono (fun j => ?_) (completes_erase hA i hmem hc.2)
      exact le_of_eq (add_right_comm _ _ _)

/-! ## Soundness and completeness of the greedy rounds -/

theorem rounds_sound {A N : Mat} :
    ∀ (n : Nat) (w : Work), rounds A N n w = true →
      ∃ order : List (Fin NUMBER_OF_CUSTOMERS), order.length = n ∧ order.Nodup ∧
        (∀ i, i ∈ order → w.2 i = false) ∧ Completes A N w.1 order
  | 0, _, _ => ⟨[], rfl, List.nodup_nil, by simp, trivial⟩
  | n + 1, w, h => by
    unfold rounds at h
    split at h
    · exact absurd h (by simp)
    · rename_i w' hs
      obtain ⟨i, -, hfi, hni, rfl⟩ := scan_some hs
      obtain ⟨order, hlen, hnd, hfin, hc⟩ := rounds_sound n _ h
      have hnot : i ∉ order := fun hi => by
        have := hfin i hi
        simp at this
      refine ⟨i :: order, by simp [hlen], List.nodup_cons.mpr ⟨hnot, hnd⟩, ?_, hni, hc⟩
      intro k hk
      rcases List.mem_cons.mp hk with rfl | hk
      · exact hfi
      · have hki : k ≠ i := fun e => hnot (e ▸ hk)
        have := hfin k hk
        simpa [Function.update_noteq hki] using this

theorem rounds_complete {A N : Mat} (hA : ∀ i j, 0 ≤ A i j) :
    ∀ (n : Nat) (w : Work) (order : List (Fin NUMBER_OF_CUSTOMERS)), order.length = n →
      order.Nodup → (∀ i, i ∈ order ↔ w.2 i = false) → Completes A N w.1 order →
      rounds A N n w = true
  | 0, _, _, _, _, _, _ => rfl
  | n + 1, w, order, hlen, hnd, hfin, hc => by
    obtain ⟨a, rest, rfl⟩ : ∃ a rest, order = a :: rest := by
      cases order with
      | nil => simp at hlen
      | cons a rest => exact ⟨a, rest, rfl⟩
    obtain ⟨w', hs⟩ := scan_isSome (A := A) (List.mem_finRange a)
      ((hfin a).mp (List.mem_cons_self _ _)) hc.1
    unfold rounds
    rw [hs]
    obtain ⟨i, -, hfi, -, rfl⟩ := scan_some hs
    have hi : i ∈ a :: rest := (hfin i).mpr hfi
    refine rounds_complete hA n _ ((a :: rest).erase i) ?_ (hnd.erase i) ?_
      (completes_erase hA i hi hc)
    · rw [List.length_erase_of_mem hi, hlen]
      rfl
    · intro k
      rw [hnd.mem_erase_iff]
      by_cases hki : k = i
      · subst hki
        simp
      · simp [Function.update_noteq hki, hki, hfin k]

/-- A duplicate-free list of all `NUMBER_OF_CUSTOMERS` indices is a permutation of the
index range. -/
theorem perm_finRange_of_nodup {order : List (Fin NUMBER_OF_CUSTOMERS)}
    (hnd : order.Nodup) (hlen : order.length = NUMBER_OF_CUSTOMERS) :
    order.Perm (List.finRange NUMBER_OF_CUSTOMERS) :=
  (List.subperm_of_subset hnd (fun i _ => List.mem_finRange i)).perm_of_length_le
    (by simp [hlen])

/-- The rounds of the safety algorithm, started with nobody finished, succeed exactly
when a completion order exists, provided allocations are non-negative. -/
theorem rounds_iff {A N : Mat} (hA : ∀ i j, 0 ≤ A i j) (w0 : Vec) :
    rounds A N NUMBER_OF_CUSTOMERS (w0, fun _ => false) = true ↔
      CompletionOrderExists A N w0 := by
  constructor
  · intro h
    obtain ⟨order, hlen, hnd, -, hc⟩ := rounds_sound _ _ h
    exact ⟨order, perm_finRange_of_nodup hnd hlen, hc⟩
  · rintro ⟨order, hp, hc⟩
    refine rounds_complete hA _ _ order ?_ (hp.nodup_iff.mpr (List.nodup_finRange _)) ?_ hc
    · simpa using hp.length_eq
    · intro i
      simp [hp.mem_iff, List.mem_finRange]

theorem completionOrderExists_mono {A N : Mat} {w w' : Vec} (hle : ∀ j, w j ≤ w' j) :
    CompletionOrderExists A N w → CompletionOrderExists A N w'
  | ⟨order, hp, hc⟩ => ⟨order, hp, completes_mono hle hc⟩

/-! ## The request transaction -/

theorem Ledger.ext_fields {s t : Ledger} (h1 : s.available = t.available)
    (h2 : s.maximum = t.maximum) (h3 : s.allocation = t.allocation) (h4 : s.need = t.need) :
    s = t := by
  cases s
  cases t
  simp only [Ledger.mk.injEq]
  exact ⟨h1, h2, h3, h4⟩

/-- The rollback loop undoes the provisional allocation exactly. -/
theorem rollback_try_allocate (s : Ledger) (c : Fin NUMBER_OF_CUSTOMERS) (r : Vec) :
    rollback (try_allocate s c r) c r = s := by
  apply Ledger.ext_fields
  · funext i
    simp [rollback, try_allocate]
  · rfl
  · funext k
    by_cases hk : k = c
    · subst hk
      funext i
      simp [rollback, try_allocate]
    · simp [rollback, try_allocate, Function.update_noteq hk]
  · funext k
    by_cases hk : k = c
    · subst hk
      funext i
      simp [rollback, try_allocate]
    · simp [rollback, try_allocate, Function.update_noteq hk]

/-- The two outcomes of `request_resources`: a grant, reached exactly through both
validations and the safety test on the provisional ledger, which is then kept; or a
denial, which leaves the ledger as it was. -/
theorem request_resources_cases (s : Ledger) (c : Fin NUMBER_OF_CUSTOMERS) (r : Vec) :
    ((∀ j, r j ≤ s.need c j) ∧ (∀ j, r j ≤ s.available j) ∧
        safety_algorithm (try_allocate s c r) c r = true ∧
        request_resources s c r = (0, try_allocate s c r)) ∨
      (((∃ j, s.need c j < r j) ∨ (∃ j, s.available j < r j) ∨
          safety_algorithm (try_allocate s c r) c r = false) ∧
        request_resources s c r = (-1, s)) := by
  unfold request_resources
  by_cases h1 : exceeds r (s.need c) = true
  · exact Or.inr ⟨Or.inl ((exceeds_iff _ _).mp h1), by simp [h1]⟩
  · by_cases h2 : exceeds r s.available = true
    · exact Or.inr ⟨Or.inr (Or.inl ((exceeds_iff _ _).mp h2)), by simp [h1, h2]⟩
    · by_cases h3 : safety_algorithm (try_allocate s c r) c r = true
      · refine Or.inl ⟨(exceeds_eq_false_iff _ _).mp (by simpa using h1),
          (exceeds_eq_false_iff _ _).mp (by simpa using h2), h3, ?_⟩
        simp [h1, h2, h3]
      · refine Or.inr ⟨Or.inr (Or.inr (by simpa using h3)), ?_⟩
        simp [h1, h2, h3, rollback_try_allocate]

theorem request_resources_granted {s : Ledger} {c : Fin NUMBER_OF_CUSTOMERS} {r : Vec}
    (h : (request_resources s c r).1 = 0) :
    (∀ j, r j ≤ s.need c j) ∧ (∀ j, r j ≤ s.available j) ∧
      safety_algorithm (try_allocate s c r) c r = true ∧
      (request_resources s c r).2 = try_allocate s c r := by
  rcases request_resources_cases s c r with ⟨h1, h2, h3, h4⟩ | ⟨-, h4⟩
  · exact ⟨h1, h2, h3, by rw [h4]⟩
  · rw [h4] at h
    exact absurd h (by simp)

theorem request_resources_denied {s : Ledger} {c : Fin NUMBER_OF_CUSTOMERS} {r : Vec}
    (h : (request_resources s c r).1 ≠ 0) : (request_resources s c r).2 = s := by
  rcases request_resources_cases s c r with ⟨-, -, -, h4⟩ | ⟨-, h4⟩
  · rw [h4] at h
    exact absurd rfl h
  · rw [h4]

theorem safety_algorithm_iff {s : Ledger} (hA : ∀ i j, 0 ≤ s.allocation i j)
    (c : Fin NUMBER_OF_CUSTOMERS) (r : Vec) :
    safety_algorithm s c r = true ↔
      CompletionOrderExists s.allocation s.need (fun j => s.available j - r j) :=
  rounds_iff hA _

theorem try_allocate_allocation_nonneg {s : Ledger} (hA : ∀ i j, 0 ≤ s.allocation i j)
    (c : Fin NUMBER_OF_CUSTOMERS) {r : Vec} (hr : ∀ j, 0 ≤ r j) :
    ∀ i j, 0 ≤ (try_allocate s c r).allocation i j := by
  intro i j
  by_cases hi : i = c
  · subst hi
    simpa [try_allocate] using add_nonneg (hA i j) (hr j)
  · simpa [try_allocate, Function.update_noteq hi] using hA i j

/-- A granted request with non-negative amounts leaves a safe ledger, when allocations
were non-negative. -/
theorem granted_safe {s : Ledger} (hA : ∀ i j, 0 ≤ s.allocation i j)
    {c : Fin NUMBER_OF_CUSTOMERS} {r : Vec} (hr : ∀ j, 0 ≤ r j)
    (h : (request_resources s c r).1 = 0) (k : Fin NUMBER_OF_CUSTOMERS) :
    safety_algorithm (request_resources s c r).2 k (fun _ => 0) = true := by
  obtain ⟨-, -, hsafe, heq⟩ := request_resources_granted h
  rw [heq]
  have hA1 := try_allocate_allocation_nonneg hA c hr
  rw [safety_algorithm_iff hA1] at hsafe ⊢
  refine completionOrderExists_mono (fun j => ?_) hsafe
  have := hr j
  simp only [sub_zero]
  linarith

/-! ## The release transaction -/

/-- Changing the rows of a customer that is not in the order does not affect the
order. -/
theorem completes_update_of_not_mem {A N : Mat} (c : Fin NUMBER_OF_CUSTOMERS) (x y : Vec) :
    ∀ {order : List (Fin NUMBER_OF_CUSTOMERS)} {w : Vec}, c ∉ order →
      Completes A N w order →
      Completes (Function.update A c x) (Function.update N c y) w order
  | [], _, _, _ => trivial
  | i :: rest, w, hc, h => by
    have hic : i ≠ c := fun e => hc (e ▸ List.mem_cons_self _ _)
    have hrest : c ∉ rest := fun e => hc (List.mem_cons_of_mem _ e)
    refine ⟨fun j => by simpa [Function.update_noteq hic] using h.1 j, ?_⟩
    simpa [Function.update_noteq hic] using
      completes_update_of_not_mem c x y hrest h.2

/-- A completion order survives a release by customer `c` of non-negative amounts `a`:
the work vector gains `a`, the need of `c` grows by `a` and its allocation shrinks by
`a`. -/
theorem completes_release {A N : Mat} (c : Fin NUMBER_OF_CUSTOMERS) {a : Vec}
    (ha : ∀ j, 0 ≤ a j) :
    ∀ {order : List (Fin NUMBER_OF_CUSTOMERS)} {w : Vec}, order.Nodup →
      Completes A N w order →
      Completes (Function.update A c (fun j => A c j - a j))
        (Function.update N c (fun j => N c j + a j)) (fun j => w j + a j) order
  | [], _, _, _ => trivial
  | i :: rest, w, hnd, h => by
    obtain ⟨hi, hnd⟩ := List.nodup_cons.mp hnd
    by_cases hic : i = c
    · subst hic
      refine ⟨fun j => by simpa using h.1 j, ?_⟩
      refine completes_mono (fun j => ?_) (completes_update_of_not_mem i _ _ hi h.2)
      simp
    · refine ⟨fun j => ?_, ?_⟩
      · simpa [Function.update_noteq hic] using
          le_trans (h.1 j) (le_add_of_nonneg_right (ha j))
      · refine completes_mono (fun j => ?_) (completes_release c ha hnd h.2)
        simp only [Function.update_noteq hic]
        exact le_of_eq (add_right_comm _ _ _)

theorem release_allocation_nonneg {s : Ledger} (c : Fin NUMBER_OF_CUSTOMERS) {a : Vec}
    (hA : ∀ i j, 0 ≤ s.allocation i j) (ha : ∀ j, a j ≤ s.allocation c j) :
    ∀ i j, 0 ≤ (release_resources s c a).2.allocation i j := by
  intro i j
  by_cases hi : i = c
  · subst hi
    simpa [release_resources] using ha j
  · simpa [release_resources, Function.update_noteq hi] using hA i j

/-- A release within the customer's holding keeps a safe ledger safe. -/
theorem release_safe {s : Ledger} (c : Fin NUMBER_OF_CUSTOMERS) {a : Vec}
    (hA : ∀ i j, 0 ≤ s.allocation i j) (ha : ∀ j, 0 ≤ a j ∧ a j ≤ s.allocation c j)
    (k : Fin NUMBER_OF_CUSTOMERS) (h : safety_algorithm s k (fun _ => 0) = true) :
    safety_algorithm (release_resources s c a).2 k (fun _ => 0) = true := by
  rw [safety_algorithm_iff (release_allocation_nonneg c hA (fun j => (ha j).2))]
  rw [safety_algorithm_iff hA] at h
  obtain ⟨order, hp, hc⟩ := h
  refine ⟨order, hp, ?_⟩
  have hnd : order.Nodup := hp.nodup_iff.mpr (List.nodup_finRange _)
  have := completes_release (A := s.allocation) (N := s.need) c (fun j => (ha j).1) hnd hc
  simpa [release_resources] using this

/-! ## Reachable ledgers -/

/-- The ledger built by `main` is safe when every maximum fits in the available
units: with nothing allocated, the customers complete in index order. -/
theorem main_init_safe {avail : Vec} {maxv : Mat} (h : ∀ i j, maxv i j ≤ avail j)
    (k : Fin NUMBER_OF_CUSTOMERS) :
    safety_algorithm (main_init avail maxv) k (fun _ => 0) = true := by
  rw [safety_algorithm_iff (by intro i j; exact le_refl _)]
  refine ⟨List.finRange NUMBER_OF_CUSTOMERS, List.Perm.refl _, ?_⟩
  have key : ∀ (order : List (Fin NUMBER_OF_CUSTOMERS)) (w : Vec), (∀ j, avail j ≤ w j) →
      Completes (main_init avail maxv).allocation (main_init avail maxv).need w order := by
    intro order
    induction order with
    | nil => intro _ _; trivial
    | cons i rest ih =>
      intro w hw
      exact ⟨fun j => le_trans (h i j) (hw j), ih _ (fun j => by simpa [main_init] using hw j)⟩
  exact key _ _ (fun j => by simp [main_init])

/-- The invariant of the reachable ledgers: allocations are non-negative and the
ledger is safe. -/
theorem run_safe :
    ∀ (calls : List Call) (s : Ledger), (∀ i j, 0 ≤ s.allocation i j) →
      is_safe s = true → allInBounds s calls = true →
      (∀ i j, 0 ≤ (run s calls).allocation i j) ∧ is_safe (run s calls) = true
  | [], _, hA, hs, _ => ⟨hA, hs⟩
  | Call.request c r :: rest, s, hA, hs, hb => by
    simp only [allInBounds, inBounds, Bool.and_eq_true, decide_eq_true_eq] at hb
    refine run_safe rest _ ?_ ?_ hb.2
    · by_cases hg : (request_resources s c r).1 = 0
      · simp only [exec, (request_resources_granted hg).2.2.2]
        exact try_allocate_allocation_nonneg hA c hb.1
      · simpa only [exec, request_resources_denied hg] using hA
    · by_cases hg : (request_resources s c r).1 = 0
      · exact granted_safe hA hb.1 hg 0
      · simpa only [exec, request_resources_denied hg] using hs
  | Call.release c a :: rest, s, hA, hs, hb => by
    simp only [allInBounds, inBounds, Bool.and_eq_true, decide_eq_true_eq] at hb
    exact run_safe rest _ (release_allocation_nonneg c hA (fun j => (hb.1 j).2))
      (release_safe c hA hb.1 0 hs) hb.2

/-! ## Conservation and need consistency -/

theorem sum_update_row (A : Mat) (c : Fin NUMBER_OF_CUSTOMERS) (v : Vec)
    (j : Fin NUMBER_OF_RESOURCES) :
    ∑ i : Fin NUMBER_OF_CUSTOMERS, Function.update A c v i j =
      ∑ i : Fin NUMBER_OF_CUSTOMERS, A i j + (v j - A c j) := by
  have key : ∀ i : Fin NUMBER_OF_CUSTOMERS,
      Function.update A c v i j = A i j + (if i = c then v j - A c j else 0) := by
    intro i
    by_cases h : i = c
    · subst h
      simp
    · simp [h, Function.update_noteq h]
  simp only [key, Finset.sum_add_distrib, Finset.sum_ite_eq', Finset.mem_univ, if_true]

theorem total_units_try_allocate (s : Ledger) (c : Fin NUMBER_OF_CUSTOMERS) (r : Vec)
    (j : Fin NUMBER_OF_RESOURCES) : total_units (try_allocate s c r) j = total_units s j := by
  simp only [total_units, try_allocate, sum_update_row]
  ring

theorem total_units_request (s : Ledger) (c : Fin NUMBER_OF_CUSTOMERS) (r : Vec)
    (j : Fin NUMBER_OF_RESOURCES) :
    total_units (request_resources s c r).2 j = total_units s j := by
  rcases request_resources_cases s c r with ⟨-, -, -, h⟩ | ⟨-, h⟩
  · rw [h]
    exact total_units_try_allocate s c r j
  · rw [h]

theorem total_units_release (s : Ledger) (c : Fin NUMBER_OF_CUSTOMERS) (a : Vec)
    (j : Fin NUMBER_OF_RESOURCES) :
    total_units (release_resources s c a).2 j = total_units s j := by
  simp only [total_units, release_resources, sum_update_row]
  ring

theorem total_units_run (j : Fin NUMBER_OF_RESOURCES) :
    ∀ (calls : List Call) (s : Ledger), total_units (run s calls) j = total_units s j
  | [], _ => rfl
  | Call.request c r :: rest, s =>
    (total_units_run j rest _).trans (total_units_request s c r j)
  | Call.release c a :: rest, s =>
    (total_units_run j rest _).trans (total_units_release s c a j)

theorem needConsistent_try_allocate {s : Ledger} (h : NeedConsistent s)
    (c : Fin NUMBER_OF_CUSTOMERS) (r : Vec) : NeedConsistent (try_allocate s c r) := by
  intro i j
  by_cases hi : i = c
  · subst hi
    simp only [try_allocate, Function.update_same, h i j]
    ring
  · simpa [try_allocate, Function.update_noteq hi] using h i j

theorem needConsistent_request {s : Ledger} (h : NeedConsistent s)
    (c : Fin NUMBER_OF_CUSTOMERS) (r : Vec) :
    NeedConsistent (request_resources s c r).2 := by
  rcases request_resources_cases s c r with ⟨-, -, -, h4⟩ | ⟨-, h4⟩
  · rw [h4]
    exact needConsistent_try_allocate h c r
  · rw [h4]
    exact h

theorem needConsistent_release {s : Ledger} (h : NeedConsistent s)
    (c : Fin NUMBER_OF_CUSTOMERS) (a : Vec) :
    NeedConsistent (release_resources s c a).2 := by
  intro i j
  by_cases hi : i = c
  · subst hi
    simp only [release_resources, Function.update_same, h i j]
    ring
  · simpa [release_resources, Function.update_noteq hi] using h i j

theorem maximum_request (s : Ledger) (c : Fin NUMBER_OF_CUSTOMERS) (r : Vec) :
    (request_resources s c r).2.maximum = s.maximum := by
  rcases request_resources_cases s c r with ⟨-, -, -, h4⟩ | ⟨-, h4⟩ <;> rw [h4]
  rfl

theorem needConsistent_run :
    ∀ (calls : List Call) (s : Ledger), NeedConsistent s → NeedConsistent (run s calls)
  | [], _, h => h
  | Call.request c r :: rest, _, h => needConsistent_run rest _ (needConsistent_request h c r)
  | Call.release c a :: rest, _, h => needConsistent_run rest _ (needConsistent_release h c a)

theorem nonNeg_request {s : Ledger} (hs : NonNeg s) (c : Fin NUMBER_OF_CUSTOMERS) {r : Vec}
    (hr : ∀ j, 0 ≤ r j) : NonNeg (request_resources s c r).2 := by
  rcases request_resources_cases s c r with ⟨h1, h2, -, h4⟩ | ⟨-, h4⟩
  · rw [h4]
    refine ⟨fun j => ?_, try_allocate_allocation_nonneg hs.2.1 c hr, fun i j => ?_⟩
    · simpa [try_allocate] using h2 j
    · by_cases hi : i = c
      · subst hi
        simpa [try_allocate] using h1 j
      · simpa [try_allocate, Function.update_noteq hi] using hs.2.2 i j
  · rw [h4]
    exact hs

theorem nonNeg_release {s : Ledger} (hs : NonNeg s) (c : Fin NUMBER_OF_CUSTOMERS) {a : Vec}
    (ha : ∀ j, 0 ≤ a j ∧ a j ≤ s.allocation c j) : NonNeg (release_resources s c a).2 := by
  refine ⟨fun j => ?_, release_allocation_nonneg c hs.2.1 (fun j => (ha j).2), fun i j => ?_⟩
  · simpa [release_resources] using add_nonneg (hs.1 j) (ha j).1
  · by_cases hi : i = c
    · subst hi
      simpa [release_resources] using add_nonneg (hs.2.2 i j) (ha j).1
    · simpa [release_resources, Function.update_noteq hi] using hs.2.2 i j

/-! ## The claims -/

/-- C1, evaluated on the code at Scenario A: the request `[10,0,0]` of customer 0 is
within its need and within the available units, and the ledger obtained by the
provisional allocation is safe when the safety test is seeded with its own
`available`; yet `request_resources` returns `-1`, because `safety_algorithm` subtracts
the request from `available` a second time and scans from the work vector
`[-10,0,0]`. -/
theorem C1_scenarioA_denied :
    (∀ j, requestA j ≤ scenarioA.need 0 j) ∧ (∀ j, requestA j ≤ scenarioA.available j) ∧
      is_safe (try_allocate scenarioA 0 requestA) = true ∧
      safety_algorithm (try_allocate scenarioA 0 requestA) 0 requestA = false ∧
      (request_resources scenarioA 0 requestA).1 = -1 := by
  decide

/-- C2, safety monotonicity: when all allocations are non-negative and the amounts of
the request are non-negative, a request that `request_resources` grants (return code
0) leaves a ledger on which the safety test seeded with the ledger's own `available`
(`safety_algorithm` with an all-zero request) returns true. -/
theorem C2_granted_is_safe (s : Ledger) (c : Fin NUMBER_OF_CUSTOMERS) (r : Vec)
    (hA : ∀ i j, 0 ≤ s.allocation i j) (hr : ∀ j, 0 ≤ r j)
    (hg : (request_resources s c r).1 = 0) :
    safety_algorithm (request_resources s c r).2 c (fun _ => 0) = true :=
  granted_safe hA hr hg c

theorem C2_granted_is_safe_witness :
    (request_resources scenarioC 0 requestC).1 = 0 ∧
      safety_algorithm (request_resources scenarioC 0 requestC).2 0 (fun _ => 0) = true :=
  ⟨by decide, C2_granted_is_safe scenarioC 0 requestC (by decide) (by decide) (by decide)⟩

/-- C3, correctness of the safety checker: when all allocations are non-negative,
`safety_algorithm` returns true if and only if some permutation of all customers is a
completion order for the work vector `available - request`; with an all-zero request
it decides whether a completion order exists from `available` itself. -/
theorem C3_safety_algorithm_iff_completion_order (s : Ledger)
    (c : Fin NUMBER_OF_CUSTOMERS) (r : Vec) (hA : ∀ i j, 0 ≤ s.allocation i j) :
    (safety_algorithm s c r = true ↔
        CompletionOrderExists s.allocation s.need (fun j => s.available j - r j)) ∧
      (safety_algorithm s c (fun _ => 0) = true ↔
        CompletionOrderExists s.allocation s.need s.available) := by
  refine ⟨safety_algorithm_iff hA c r, ?_⟩
  have := safety_algorithm_iff hA c (fun _ => 0)
  simpa only [sub_zero] using this

theorem C3_safety_algorithm_iff_completion_order_witness :
    (safety_algorithm scenarioC 0 requestC = true ↔
        CompletionOrderExists scenarioC.allocation scenarioC.need
          (fun j => scenarioC.available j - requestC j)) ∧
      (safety_algorithm scenarioC 0 (fun _ => 0) = true ↔
        CompletionOrderExists scenarioC.allocation scenarioC.need scenarioC.available) :=
  C3_safety_algorithm_iff_completion_order scenarioC 0 requestC (by decide)

/-- C4, the system never enters an unsafe state: from a ledger built as `main` builds
it (allocation zero, need equal to maximum) with `0 <= maximum[i][j] <= available[j]`,
the ledger after any finite sequence of `request_resources` calls with non-negative
amounts and `release_resources` calls with `0 <= amounts[j] <= allocation[c][j]` is
safe. -/
theorem C4_reachable_ledgers_safe (avail : Vec) (maxv : Mat) (calls : List Call)
    (h0 : ∀ i j, 0 ≤ maxv i j ∧ maxv i j ≤ avail j)
    (hb : allInBounds (main_init avail maxv) calls = true) :
    is_safe (run (main_init avail maxv) calls) = true :=
  (run_safe calls (main_init avail maxv) (fun _ _ => le_refl _)
    (main_init_safe (fun i j => (h0 i j).2) 0) hb).2

theorem C4_reachable_ledgers_safe_witness :
    is_safe (run (main_init ![3, 0, 0]
      ![![2, 0, 0], ![2, 0, 0], ![0, 0, 0], ![0, 0, 0], ![0, 0, 0]]) callsC) = true :=
  C4_reachable_ledgers_safe ![3, 0, 0]
    ![![2, 0, 0], ![2, 0, 0], ![0, 0, 0], ![0, 0, 0], ![0, 0, 0]] callsC
    (by decide) (by decide)

/-- C5, atomicity of denial: when `request_resources` returns `-1`, the ledger after
the call (`available`, `maximum`, `allocation` and `need`) is the ledger before the
call. -/
theorem C5_denied_ledger_unchanged (s : Ledger) (c : Fin NUMBER_OF_CUSTOMERS) (r : Vec)
    (h : (request_resources s c r).1 = -1) : (request_resources s c r).2 = s :=
  request_resources_denied (by rw [h]; decide)

theorem C5_denied_ledger_unchanged_witness :
    (request_resources scenarioA 0 requestA).1 = -1 ∧
      (request_resources scenarioA 0 requestA).2 = scenarioA :=
  ⟨by decide, C5_denied_ledger_unchanged scenarioA 0 requestA (by decide)⟩

/-- C6, validation failures are denied: when some amount of the request exceeds the
customer's need, or some amount exceeds the available units, `request_resources`
returns `-1` and the ledger is the one before the call. -/
theorem C6_validation_failure_denied (s : Ledger) (c : Fin NUMBER_OF_CUSTOMERS) (r : Vec)
    (h : (∃ j, r j > s.need c j) ∨ (∃ j, r j > s.available j)) :
    request_resources s c r = (-1, s) := by
  unfold request_resources
  rcases h with h | h
  · rw [if_pos ((exceeds_iff _ _).mpr h)]
  · by_cases h1 : exceeds r (s.need c) = true
    · rw [if_pos h1]
    · rw [if_neg h1, if_pos ((exceeds_iff _ _).mpr h)]

theorem C6_validation_failure_denied_witness :
    request_resources scenarioA 0 requestOver = (-1, scenarioA) :=
  C6_validation_failure_denied scenarioA 0 requestOver (Or.inl ⟨0, by decide⟩)

/-- C7, grant postcondition: when `request_resources` returns 0, the ledger after the
call has, for every resource type `j`, `available[j]` lowered by `amounts[j]`,
`allocation[c][j]` raised by `amounts[j]` and `need[c][j]` lowered by `amounts[j]`. -/
theorem C7_grant_postcondition (s : Ledger) (c : Fin NUMBER_OF_CUSTOMERS) (r : Vec)
    (h : (request_resources s c r).1 = 0) (j : Fin NUMBER_OF_RESOURCES) :
    (request_resources s c r).2.available j = s.available j - r j ∧
      (request_resources s c r).2.allocation c j = s.allocation c j + r j ∧
      (request_resources s c r).2.need c j = s.need c j - r j := by
  rw [(request_resources_granted h).2.2.2]
  simp [try_allocate]

theorem C7_grant_postcondition_witness :
    (request_resources scenarioC 0 requestC).2.available 0 = scenarioC.available 0 - 1 ∧
      (request_resources scenarioC 0 requestC).2.allocation 0 0 =
        scenarioC.allocation 0 0 + 1 ∧
      (request_resources scenarioC 0 requestC).2.need 0 0 = scenarioC.need 0 0 - 1 :=
  C7_grant_postcondition scenarioC 0 requestC (by decide) 0

/-- C8, conservation: for every ledger, customer, amounts and resource type `j`, both
`request_resources` and `release_resources` leave `available[j]` plus the sum of
`allocation[i][j]` over all customers unchanged; so after any sequence of calls from
the ledger built by `main` this quantity is the initial `available[j]`. -/
theorem C8_conservation (s : Ledger) (c : Fin NUMBER_OF_CUSTOMERS) (a : Vec)
    (j : Fin NUMBER_OF_RESOURCES) (avail : Vec) (maxv : Mat) (calls : List Call) :
    total_units (request_resources s c a).2 j = total_units s j ∧
      total_units (release_resources s c a).2 j = total_units s j ∧
      total_units (run (main_init avail maxv) calls) j = avail j := by
  refine ⟨total_units_request s c a j, total_units_release s c a j, ?_⟩
  rw [total_units_run]
  simp [total_units, main_init]

/-- C9, need consistency: `need[i][j] = maximum[i][j] - allocation[i][j]` holds in the
ledger built by `main`, is preserved by every `request_resources` and every
`release_resources` call whatever the amounts, and so holds after any sequence of
calls; neither call modifies `maximum`. -/
theorem C9_need_consistency (avail : Vec) (maxv : Mat) (calls : List Call) (s : Ledger)
    (c : Fin NUMBER_OF_CUSTOMERS) (a : Vec) (h : NeedConsistent s) :
    NeedConsistent (main_init avail maxv) ∧
      NeedConsistent (request_resources s c a).2 ∧
      NeedConsistent (release_resources s c a).2 ∧
      NeedConsistent (run (main_init avail maxv) calls) ∧
      (request_resources s c a).2.maximum = s.maximum ∧
      (release_resources s c a).2.maximum = s.maximum := by
  have hinit : NeedConsistent (main_init avail maxv) := fun i j => by simp [main_init]
  exact ⟨hinit, needConsistent_request h c a, needConsistent_release h c a,
    needConsistent_run calls _ hinit, maximum_request s c a, rfl⟩

theorem C9_need_consistency_witness :
    NeedConsistent (request_resources scenarioC 0 requestC).2 ∧
      NeedConsistent (release_resources scenarioC 0 requestC).2 :=
  have h := C9_need_consistency ![3, 0, 0] (fun _ => ![1, 0, 0]) callsC scenarioC 0 requestC
    (by decide)
  ⟨h.2.1, h.2.2.1⟩

/-- C10, non-negativity: when no entry of `available`, `allocation` and `need` is
negative, none is negative after a `request_resources` call with non-negative amounts
(granted or denied), and none after a `release_resources` call with
`0 <= amounts[j] <= allocation[c][j]`. -/
theorem C10_non_negativity (s : Ledger) (c : Fin NUMBER_OF_CUSTOMERS) (r a : Vec)
    (hs : NonNeg s) (hr : ∀ j, 0 ≤ r j) (ha : ∀ j, 0 ≤ a j ∧ a j ≤ s.allocation c j) :
    NonNeg (request_resources s c r).2 ∧ NonNeg (release_resources s c a).2 :=
  ⟨nonNeg_request hs c hr, nonNeg_release hs c ha⟩

theorem C10_non_negativity_witness :
    NonNeg (request_resources (request_resources scenarioC 0 requestC).2 0 requestC).2 ∧
      NonNeg (release_resources (request_resources scenarioC 0 requestC).2 0 requestC).2 :=
  C10_non_negativity (request_resources scenarioC 0 requestC).2 0 requestC requestC
    (by decide) (by decide) (by decide)

/-- C11, as stated, fails on the code: in Scenario A customer 0 holds nothing, and a
release of `[10,0,0]` by customer 0 exceeds its holding, yet it is not rejected:
`release_resources` returns 0 and leaves `allocation[0][0]` at `-10`. -/
theorem C11_release_not_guarded_counterexample :
    (∃ j, requestA j > scenarioA.allocation 0 j) ∧
      (release_resources scenarioA 0 requestA).1 = 0 ∧
      (release_resources scenarioA 0 requestA).2.allocation 0 0 = -10 := by
  decide

/-- C11, amended: `release_resources` has no bound check. A release whose `amounts[j]`
exceeds `allocation[c][j]` still returns 0, and it leaves `allocation[c][j]` at
`allocation[c][j] - amounts[j]`, a negative value. -/
theorem C11_release_not_guarded (s : Ledger) (c : Fin NUMBER_OF_CUSTOMERS) (a : Vec)
    (j : Fin NUMBER_OF_RESOURCES) (h : a j > s.allocation c j) :
    (release_resources s c a).1 = 0 ∧
      (release_resources s c a).2.allocation c j = s.allocation c j - a j ∧
      (release_resources s c a).2.allocation c j < 0 := by
  refine ⟨rfl, by simp [release_resources], ?_⟩
  simpa [release_resources] using h

theorem C11_release_not_guarded_witness :
    (release_resources scenarioC 0 requestC).1 = 0 ∧
      (release_resources scenarioC 0 requestC).2.allocation 0 0 =
        scenarioC.allocation 0 0 - requestC 0 ∧
      (release_resources scenarioC 0 requestC).2.allocation 0 0 < 0 :=
  C11_release_not_guarded scenarioC 0 requestC 0 (by decide)

/-- C12, release postcondition: when `0 <= amounts[j] <= allocation[c][j]` for every
`j`, `release_resources` returns 0 and the ledger after the call has, for every resource
type `j`, `available[j]` raised by `amounts[j]`, `allocation[c][j]` lowered by
`amounts[j]` and `need[c][j]` raised by `amounts[j]`. -/
theorem C12_release_postcondition (s : Ledger) (c : Fin NUMBER_OF_CUSTOMERS) (a : Vec)
    (_h : ∀ j, 0 ≤ a j ∧ a j ≤ s.allocation c j) :
    (release_resources s c a).1 = 0 ∧
      ∀ j, (release_resources s c a).2.available j = s.available j + a j ∧
        (release_resources s c a).2.allocation c j = s.allocation c j - a j ∧
        (release_resources s c a).2.need c j = s.need c j + a j := by
  refine ⟨rfl, fun j => ?_⟩
  simp [release_resources]

theorem C12_release_postcondition_witness :
    (release_resources scenarioC1 0 requestC).1 = 0 ∧
      ∀ j, (release_resources scenarioC1 0 requestC).2.available j =
          scenarioC1.available j + requestC j ∧
        (release_resources scenarioC1 0 requestC).2.allocation 0 j =
          scenarioC1.allocation 0 j - requestC j ∧
        (release_resources scenarioC1 0 requestC).2.need 0 j =
          scenarioC1.need 0 j + requestC j :=
  C12_release_postcondition scenarioC1 0 requestC (by decide)

/-- C13, release cannot make the system less safe: when all allocations are
non-negative and the ledger is safe, the ledger after a `release_resources` call with
`0 <= amounts[j] <= allocation[c][j]` is safe again. -/
theorem C13_release_keeps_safe (s : Ledger) (c : Fin NUMBER_OF_CUSTOMERS) (a : Vec)
    (hA : ∀ i j, 0 ≤ s.allocation i j) (hs : is_safe s = true)
    (ha : ∀ j, 0 ≤ a j ∧ a j ≤ s.allocation c j) :
    is_safe (release_resources s c a).2 = true :=
  release_safe c hA ha 0 hs

theorem C13_release_keeps_safe_witness :
    is_safe scenarioC1 = true ∧ is_safe (release_resources scenarioC1 0 requestC).2 = true :=
  ⟨by decide, C13_release_keeps_safe scenarioC1 0 requestC (by decide) (by decide)
    (by decide)⟩

/-- C14, row isolation: after `request_resources(c, amounts)` (granted or denied) and
after `release_resources(c, amounts)`, the rows `allocation[i]` and `need[i]` of every
customer `i` other than `c` are unchanged, and `maximum` is unchanged. -/
theorem C14_row_isolation (s : Ledger) (c : Fin NUMBER_OF_CUSTOMERS) (a : Vec)
    (i : Fin NUMBER_OF_CUSTOMERS) (hi : i ≠ c) :
    (request_resources s c a).2.allocation i = s.allocation i ∧
      (request_resources s c a).2.need i = s.need i ∧
      (release_resources s c a).2.allocation i = s.allocation i ∧
      (release_resources s c a).2.need i = s.need i ∧
      (request_resources s c a).2.maximum = s.maximum ∧
      (release_resources s c a).2.maximum = s.maximum := by
  have hrel : (release_resources s c a).2.allocation i = s.allocation i ∧
      (release_resources s c a).2.need i = s.need i := by
    simp [release_resources, Function.update_noteq hi]
  refine ⟨?_, ?_, hrel.1, hrel.2, maximum_request s c a, rfl⟩
  · rcases request_resources_cases s c a with ⟨-, -, -, h4⟩ | ⟨-, h4⟩ <;> rw [h4]
    simp [try_allocate, Function.update_noteq hi]
  · rcases request_resources_cases s c a with ⟨-, -, -, h4⟩ | ⟨-, h4⟩ <;> rw [h4]
    simp [try_allocate, Function.update_noteq hi]

theorem C14_row_isolation_witness :
    (request_resources scenarioC 0 requestC).2.allocation 1 = scenarioC.allocation 1 ∧
      (request_resources scenarioC 0 requestC).2.need 1 = scenarioC.need 1 ∧
      (release_resources scenarioC 0 requestC).2.allocation 1 = scenarioC.allocation 1 ∧
      (release_resources scenarioC 0 requestC).2.need 1 = scenarioC.need 1 ∧
      (request_resources scenarioC 0 requestC).2.maximum = scenarioC.maximum ∧
      (release_resources scenarioC 0 requestC).2.maximum = scenarioC.maximum :=
  C14_row_isolation scenarioC 0 requestC 1 (by decide)

/-- C15, evaluated on the code at Scenario C: the first request `[1,0,0]` of customer 0
is granted and leaves `allocation[0][0] = 1` and `available[0] = 2`. The second request
`[2,0,0]` of customer 1 is within its need and within the available units, and the
ledger obtained by its provisional allocation is safe when the safety test is seeded
with its own `available`; yet `request_resources` returns `-1`, because
`safety_algorithm` subtracts the request a second time and scans from `[-2,0,0]`. -/
theorem C15_scenarioC_second_request_denied :
    (request_resources scenarioC 0 requestC).1 = 0 ∧
      scenarioC1.allocation 0 0 = 1 ∧ scenarioC1.available 0 = 2 ∧
      (∀ j, requestC2 j ≤ scenarioC1.need 1 j) ∧
      (∀ j, requestC2 j ≤ scenarioC1.available j) ∧
      is_safe (try_allocate scenarioC1 1 requestC2) = true ∧
      safety_algorithm (try_allocate scenarioC1 1 requestC2) 1 requestC2 = false ∧
      (request_resources scenarioC1 1 requestC2).1 = -1 := by
  decide

/-- C16, Scenario C contrast: after customer 0 has been granted `[1,0,0]` (leaving
`available[0] = 2`, `allocation[0][0] = 1`, `need[0][0] = 1`), the request `[1,0,0]` of
customer 1 returns `-1` and the ledger after the call is the ledger before it. -/
theorem C16_scenarioC_contrast_denied :
    (request_resources scenarioC 0 requestC).1 = 0 ∧
      scenarioC1.available 0 = 2 ∧ scenarioC1.allocation 0 0 = 1 ∧
      scenarioC1.need 0 0 = 1 ∧
      request_resources scenarioC1 1 requestC = (-1, scenarioC1) := by
  refine ⟨by decide, by decide, by decide, by decide, Prod.ext (by decide) ?_⟩
  exact request_resources_denied (by decide)

/-- C18, the grant condition as implemented: `request_resources` returns 0 if and only
if every amount is within the customer's need, every amount is within the available
units, and the greedy rounds on the provisionally updated `allocation` and `need`
succeed from the work vector `available[j] - 2 * amounts[j]` of the ledger before the
call. -/
theorem C18_grant_condition (s : Ledger) (c : Fin NUMBER_OF_CUSTOMERS) (r : Vec) :
    (request_resources s c r).1 = 0 ↔
      (∀ j, r j ≤ s.need c j) ∧ (∀ j, r j ≤ s.available j) ∧
        rounds (try_allocate s c r).allocation (try_allocate s c r).need
          NUMBER_OF_CUSTOMERS (fun j => s.available j - 2 * r j, fun _ => false) = true := by
  have hw : (fun j => s.available j - 2 * r j) =
      fun j => (try_allocate s c r).available j - r j := by
    funext j
    simp only [try_allocate]
    ring
  rw [hw]
  constructor
  · intro h
    obtain ⟨h1, h2, h3, -⟩ := request_resources_granted h
    exact ⟨h1, h2, h3⟩
  · rintro ⟨h1, h2, h3⟩
    rcases request_resources_cases s c r with ⟨-, -, -, h4⟩ | ⟨h5, -⟩
    · rw [h4]
    · exfalso
      rcases h5 with ⟨j, hj⟩ | ⟨j, hj⟩ | h5
      · exact absurd (h1 j) (not_le.mpr hj)
      · exact absurd (h2 j) (not_le.mpr hj)
      · have h6 : safety_algorithm (try_allocate s c r) c r = true := h3
        rw [h5] at h6
        exact absurd h6 (by decide)

/-- C19, negative request amounts are not rejected: there are a ledger with no negative
entry and with `need = maximum - allocation`, a customer and a request with a negative
amount for which `request_resources` returns 0 and leaves a negative `allocation`
entry for that customer (every customer at maximum and allocation zero, available
`[1,1,1]`, customer 0 requesting `[-1,0,0]`). -/
theorem C19_negative_request_granted :
    ∃ (s : Ledger) (c : Fin NUMBER_OF_CUSTOMERS) (r : Vec),
      NonNeg s ∧ NeedConsistent s ∧ (∃ j, r j < 0) ∧
        (request_resources s c r).1 = 0 ∧
        ∃ j, (request_resources s c r).2.allocation c j < 0 :=
  ⟨idleLedger, 0, requestNeg, by decide, by decide, ⟨0, by decide⟩, by decide,
    ⟨0, by decide⟩⟩

/-- C20, request/release round trip: when `request_resources(c, amounts)` returns 0, a
following `release_resources(c, amounts)` with the same amounts returns 0 and gives back
the ledger before the request (`available`, `allocation` and `need`, with `maximum`
untouched). -/
theorem C20_request_release_round_trip (s : Ledger) (c : Fin NUMBER_OF_CUSTOMERS) (r : Vec)
    (h : (request_resources s c r).1 = 0) :
    release_resources (request_resources s c r).2 c r = (0, s) := by
  rw [(request_resources_granted h).2.2.2]
  exact Prod.ext rfl (rollback_try_allocate s c r)

theorem C20_request_release_round_trip_witness :
    (request_resources scenarioC 0 requestC).1 = 0 ∧
      release_resources (request_resources scenarioC 0 requestC).2 0 requestC =
        (0, scenarioC) :=
  ⟨by decide, C20_request_release_round_trip scenarioC 0 requestC (by decide)⟩

end Bankers
